import Mathlib

/-!
Verification development for the `helium-drm-fixer` tool: a shallow
embedding in Lean 4 of its path/asset selection, cached-download
validation, checksum, directory copy, extraction search and
orchestrator logic, followed by theorems about these definitions.

Machine integers are modelled as `Nat` with explicit `% 2 ^ 32` where
the source's 32-bit arithmetic overflows (the SHA-256 compression);
fallible operations are modelled with `Option` / `Except`; filesystem
and network effects are modelled by passing the relevant state
explicitly.
-/

namespace HeliumDrm

/-- The platforms accepted by `getPlatform` in `paths.ts`; any other
`process.platform` value makes `getPlatform` throw, so the embedded
functions take this type as input. -/
inductive Platform where
  | win32
  | darwin
  | linux
deriving DecidableEq, Repr

/-- The architectures accepted by `getArch` in `paths.ts`. -/
inductive Arch where
  | x64
  | arm64
deriving DecidableEq, Repr

/-- `GitHubAsset` from `types.ts`: `{ name, browser_download_url, size }`. -/
structure GitHubAsset where
  name : String
  browser_download_url : String
  size : Nat
deriving DecidableEq, Repr

/-- `GitHubRelease` from `types.ts` (the fields the downloader reads). -/
structure GitHubRelease where
  tag_name : String
  assets : List GitHubAsset
deriving DecidableEq, Repr

/-- `VersionCache` from `types.ts`: the persisted cache record.
`checksum` is optional in the source (`checksum?: string`). -/
structure VersionCache where
  tag : String
  name : String
  downloadedAt : Nat
  checksum : Option String
deriving DecidableEq, Repr

/-- `DownloadProgress` from `types.ts`. -/
structure DownloadProgress where
  downloaded : Nat
  total : Nat
  percentage : Nat
deriving DecidableEq, Repr

/-- `formatError` from `utils.ts`: appends ` (k=v, ...)` when a context
is supplied.  Context values are given already stringified, matching
JavaScript template interpolation of each entry. -/
def formatError (message : String) (context : Option (List (String × String))) : String :=
  match context with
  | none => message
  | some ctx =>
      let details := String.intercalate ", " (ctx.map (fun kv => kv.1 ++ "=" ++ kv.2))
      message ++ " (" ++ details ++ ")"

/-! ## Asset pattern (`getChromeAssetPattern` in `paths.ts`)

The source returns the anchored regular expression
`^<archToken>_[\d.]+_chrome_installer_uncompressed\.exe$` on Windows
and throws on every other platform.  We embed the returned pattern as
its architecture token plus a decidable matcher with exactly that
regex's semantics: the name decomposes as the token, an underscore, a
nonempty run of digits/dots, and the fixed installer tail.  Both the
leading token and the fixed tail have fixed length, so the regex's
existential split is unique and the matcher below is exact. -/

/-- The character class `[\d.]` of the asset regex. -/
def isVersionChar (c : Char) : Bool :=
  c.isDigit || c = '.'

/-- The fixed tail `_chrome_installer_uncompressed.exe` of the asset regex. -/
def chromeAssetTail : String := "_chrome_installer_uncompressed.exe"

/-- Drop `p` from the front of `l` when `p` leads `l`. -/
def dropLead : List Char → List Char → Option (List Char)
  | [], l => some l
  | _ :: _, [] => none
  | p :: ps, c :: cs => if p = c then dropLead ps cs else none

/-- Drop `s` from the back of `l` when `l` ends with `s`. -/
def dropTail (s l : List Char) : Option (List Char) :=
  (dropLead s.reverse l.reverse).map List.reverse

/-- Whether `name` matches `^<archToken>_[\d.]+_chrome_installer_uncompressed\.exe$`. -/
def matchesChromeAsset (archToken : String) (name : String) : Bool :=
  match dropLead (archToken ++ "_").toList name.toList with
  | none => false
  | some rest =>
      match dropTail chromeAssetTail.toList rest with
      | none => false
      | some mid => !mid.isEmpty && mid.all isVersionChar

/-- `getChromeAssetPattern` from `paths.ts`, embedded as the pattern's
architecture token on Windows and the thrown error elsewhere. -/
def getChromeAssetPattern (platform : Platform) (arch : Arch) : Except String String :=
  match platform with
  | .win32 => .ok (if arch = .arm64 then "arm64" else "x64")
  | _ => .error "Chrome download is only supported on Windows. Please install Chrome manually on macOS/Linux."

/-- `findMatchingAsset` from `chrome-downloader.ts`: first asset of the
release whose name matches the platform pattern; throws (as `.error`)
when the pattern builder throws or when no asset matches. -/
def findMatchingAsset (platform : Platform) (arch : Arch) (release : GitHubRelease) :
    Except String GitHubAsset :=
  match getChromeAssetPattern platform arch with
  | .error e => .error e
  | .ok tok =>
      match release.assets.find? (fun a => matchesChromeAsset tok a.name) with
      | some a => .ok a
      | none => .error (formatError
          "Could not find Chrome asset matching pattern for your platform/arch" none)

/-! ## SHA-256 (`calculateChecksum` in `utils.ts`)

`calculateChecksum` reads the whole file and feeds it to node's
`createHash('sha256')`, returning the lowercase hex digest.  The hash
primitive is external library code; it is embedded here as the
standard SHA-256 algorithm (FIPS 180-4) over the file's byte list,
with 32-bit words as `Nat` reduced `% 2 ^ 32`.  The repository's own
test vector (`'Hello, World!'` ↦
`dffd6021bb2bd5b0af676290809ec3a53191dd81c7f70a4b28688a362182986f`)
validates the embedding below. -/

/-- 32-bit right rotation. -/
def rotr32 (n x : Nat) : Nat :=
  ((x >>> n) ||| (x <<< (32 - n))) % 2 ^ 32

/-- 32-bit bitwise complement. -/
def not32 (x : Nat) : Nat := x ^^^ 0xffffffff

/-- SHA-256 `Ch` function. -/
def shaCh (e f g : Nat) : Nat := (e &&& f) ^^^ (not32 e &&& g)

/-- SHA-256 `Maj` function. -/
def shaMaj (a b c : Nat) : Nat := (a &&& b) ^^^ (a &&& c) ^^^ (b &&& c)

/-- SHA-256 `Σ₀`. -/
def bigSig0 (x : Nat) : Nat := rotr32 2 x ^^^ rotr32 13 x ^^^ rotr32 22 x

/-- SHA-256 `Σ₁`. -/
def bigSig1 (x : Nat) : Nat := rotr32 6 x ^^^ rotr32 11 x ^^^ rotr32 25 x

/-- SHA-256 `σ₀`. -/
def smallSig0 (x : Nat) : Nat := rotr32 7 x ^^^ rotr32 18 x ^^^ (x >>> 3)

/-- SHA-256 `σ₁`. -/
def smallSig1 (x : Nat) : Nat := rotr32 17 x ^^^ rotr32 19 x ^^^ (x >>> 10)

/-- The 64 SHA-256 round constants (decimal). -/
def shaK : List Nat :=
  [1116352408, 1899447441, 3049323471, 3921009573,
   961987163, 1508970993, 2453635748, 2870763221,
   3624381080, 310598401, 607225278, 1426881987,
   1925078388, 2162078206, 2614888103, 3248222580,
   3835390401, 4022224774, 264347078, 604807628,
   770255983, 1249150122, 1555081692, 1996064986,
   2554220882, 2821834349, 2952996808, 3210313671,
   3336571891, 3584528711, 113926993, 338241895,
   666307205, 773529912, 1294757372, 1396182291,
   1695183700, 1986661051, 2177026350, 2456956037,
   2730485921, 2820302411, 3259730800, 3345764771,
   3516065817, 3600352804, 4094571909, 275423344,
   430227734, 506948616, 659060556, 883997877,
   958139571, 1322822218, 1537002063, 1747873779,
   1955562222, 2024104815, 2227730452, 2361852424,
   2428436474, 2756734187, 3204031479, 3329325298]

/-- The eight 32-bit chaining values of the SHA-256 state. -/
structure Hash8 where
  a : Nat
  b : Nat
  c : Nat
  d : Nat
  e : Nat
  f : Nat
  g : Nat
  h : Nat
deriving DecidableEq, Repr

/-- The SHA-256 initial hash value (decimal). -/
def shaH0 : Hash8 :=
  ⟨1779033703, 3144134277, 1013904242, 2773480762,
   1359893119, 2600822924, 528734635, 1541459225⟩

/-- Extend a 16-word block to the 64-word message schedule
(`fuel` counts remaining words; called with 48). -/
def extendW : Nat → List Nat → List Nat
  | 0, w => w
  | n + 1, w =>
      let t := w.length
      let next := (smallSig1 (w.getD (t - 2) 0) + w.getD (t - 7) 0 +
        smallSig0 (w.getD (t - 15) 0) + w.getD (t - 16) 0) % 2 ^ 32
      extendW n (w ++ [next])

/-- One SHA-256 compression round, consuming a `(Kₜ, Wₜ)` pair. -/
def compressStep (st : Hash8) (kw : Nat × Nat) : Hash8 :=
  let T1 := (st.h + bigSig1 st.e + shaCh st.e st.f st.g + kw.1 + kw.2) % 2 ^ 32
  let T2 := (bigSig0 st.a + shaMaj st.a st.b st.c) % 2 ^ 32
  ⟨(T1 + T2) % 2 ^ 32, st.a, st.b, st.c, (st.d + T1) % 2 ^ 32, st.e, st.f, st.g⟩

/-- Compress one 16-word block into the chaining state. -/
def compressBlock (H : Hash8) (block : List Nat) : Hash8 :=
  let w := extendW 48 block
  let s := (shaK.zip w).foldl compressStep H
  ⟨(H.a + s.a) % 2 ^ 32, (H.b + s.b) % 2 ^ 32, (H.c + s.c) % 2 ^ 32, (H.d + s.d) % 2 ^ 32,
   (H.e + s.e) % 2 ^ 32, (H.f + s.f) % 2 ^ 32, (H.g + s.g) % 2 ^ 32, (H.h + s.h) % 2 ^ 32⟩

/-- Big-endian 8-byte encoding of the message bit length. -/
def lenBytes (n : Nat) : List Nat :=
  [(n >>> 56) &&& 255, (n >>> 48) &&& 255, (n >>> 40) &&& 255, (n >>> 32) &&& 255,
   (n >>> 24) &&& 255, (n >>> 16) &&& 255, (n >>> 8) &&& 255, n &&& 255]

/-- SHA-256 padding: `0x80`, zeros to 56 mod 64, then the bit length. -/
def padMessage (ms : List Nat) : List Nat :=
  let L := ms.length
  let zeros := (119 - L % 64) % 64
  ms ++ 0x80 :: List.replicate zeros 0 ++ lenBytes (L * 8)

/-- Big-endian grouping of bytes into 32-bit words. -/
def bytesToWords : List Nat → List Nat
  | b0 :: b1 :: b2 :: b3 :: rest =>
      (b0 <<< 24 ||| b1 <<< 16 ||| b2 <<< 8 ||| b3) :: bytesToWords rest
  | _ => []

/-- Split a word list into 16-word blocks (the padded input is always
a multiple of 16 words). -/
def toBlocks : List Nat → List (List Nat)
  | w0 :: w1 :: w2 :: w3 :: w4 :: w5 :: w6 :: w7 ::
    w8 :: w9 :: w10 :: w11 :: w12 :: w13 :: w14 :: w15 :: rest =>
      [w0, w1, w2, w3, w4, w5, w6, w7, w8, w9, w10, w11, w12, w13, w14, w15] :: toBlocks rest
  | _ => []

/-- The SHA-256 digest state of a byte list. -/
def sha256 (ms : List Nat) : Hash8 :=
  (toBlocks (bytesToWords (padMessage ms))).foldl compressBlock shaH0

/-- Lowercase hex digit. -/
def hexDigit (n : Nat) : Char :=
  if n < 10 then Char.ofNat (48 + n) else Char.ofNat (87 + n)

/-- Eight lowercase hex digits of a 32-bit word, most significant first. -/
def wordToHex (w : Nat) : List Char :=
  [hexDigit ((w >>> 28) &&& 15), hexDigit ((w >>> 24) &&& 15),
   hexDigit ((w >>> 20) &&& 15), hexDigit ((w >>> 16) &&& 15),
   hexDigit ((w >>> 12) &&& 15), hexDigit ((w >>> 8) &&& 15),
   hexDigit ((w >>> 4) &&& 15), hexDigit (w &&& 15)]

/-- `calculateChecksum` from `utils.ts`, over the file's byte content:
the lowercase hex SHA-256 digest. -/
def calculateChecksum (content : List Nat) : String :=
  let H := sha256 content
  String.mk (List.flatten ([H.a, H.b, H.c, H.d, H.e, H.f, H.g, H.h].map wordToHex))

/-- The bytes of an ASCII string, as the tests write files from string
literals. -/
def strBytes (s : String) : List Nat :=
  s.toList.map Char.toNat

/-! ## Cache-validity check (`checkCachedVersion` in `chrome-downloader.ts`)

The source checks, in order: `forceDownload`; existence of the
downloaded artifact and of the record file; then inside a `try`:
JSON-parse of the record, tag equality plus checksum truthiness
(`!cachedData.checksum` — falsy for a missing or empty checksum),
recomputed-checksum equality, and finally `findMatchingAsset` (whose
throw is caught by the same `try`, yielding `false`).  Any caught
exception returns `false`.

Filesystem state is passed explicitly: `exeFile` is the artifact's
byte content (`none` = absent); `versionFile` is the record file
(`none` = absent, `some none` = present but not parseable as JSON,
`some (some r)` = parses to record `r`). -/

/-- JavaScript truthiness of the optional `checksum` string field. -/
def checksumTruthy : Option String → Bool
  | none => false
  | some s => !(s = "")

/-- `checkCachedVersion` from `chrome-downloader.ts`. -/
def checkCachedVersion (platform : Platform) (arch : Arch) (forceDownload : Bool)
    (exeFile : Option (List Nat)) (versionFile : Option (Option VersionCache))
    (release : GitHubRelease) : Bool :=
  if forceDownload then false
  else
    match exeFile, versionFile with
    | some exeBytes, some parsed =>
        match parsed with
        | none => false
        | some cached =>
            if cached.tag ≠ release.tag_name || !checksumTruthy cached.checksum then false
            else if calculateChecksum exeBytes ≠ cached.checksum.getD "" then false
            else
              match findMatchingAsset platform arch release with
              | .error _ => false
              | .ok _ => true
    | _, _ => false

/-! ## Streamed download (`downloadFile` in `chrome-downloader.ts`)

The HTTP response is passed explicitly.  `contentLength` is the
parsed `content-length` header (`none` = absent or not a number —
`Number(null)` is `NaN`); the source's `if (!contentLength)` also
rejects a parsed value of `0`.  The body arrives as a chunk list; the
source pushes every chunk, displays a progress record per chunk, and
finally writes the concatenated buffer.  `Math.round` on the
source's float `downloaded / contentLength * 100` is embedded as
round-half-up rational rounding. -/

/-- An HTTP response as `downloadFile` consumes it. -/
structure HttpResp where
  ok : Bool
  status : Nat
  contentLength : Option Nat
  chunks : List (List Nat)
deriving DecidableEq, Repr

/-- Round-half-up of `x / t` for `t > 0` (JavaScript `Math.round`). -/
def roundDiv (x t : Nat) : Nat := (2 * x + t) / (2 * t)

/-- The per-chunk percentage of `downloadFile`:
`Math.min(100, Math.round(downloaded / contentLength * 100))`. -/
def downloadPercentage (downloaded contentLength : Nat) : Nat :=
  min 100 (roundDiv (downloaded * 100) contentLength)

/-- The progress records displayed after each received chunk, given
the running byte count so far. -/
def chunkProgress (total : Nat) : Nat → List (List Nat) → List DownloadProgress
  | _, [] => []
  | dl, c :: rest =>
      let dl2 := dl + c.length
      ⟨dl2, total, downloadPercentage dl2 total⟩ :: chunkProgress total dl2 rest

/-- `downloadFile` from `chrome-downloader.ts`: on success, the
progress records displayed (the initial zero record then one per
chunk) and the bytes written to the destination file. -/
def downloadFile (resp : HttpResp) : Except String (List DownloadProgress × List Nat) :=
  if !resp.ok then
    .error (formatError "Failed to download Chrome installer"
      (some [("status", toString resp.status)]))
  else
    match resp.contentLength with
    | none => .error "Content-Length header not found in response"
    | some contentLength =>
        if contentLength = 0 then .error "Content-Length header not found in response"
        else
          .ok (⟨0, contentLength, 0⟩ :: chunkProgress contentLength 0 resp.chunks,
               resp.chunks.flatten)

/-! ## Progress formatting (`formatProgress` in `utils.ts`)

`toFixed(1)` on the float `bytes / 2^20` is embedded as round-half-up
to tenths of a megabyte, rendered with one decimal. -/

/-- Tenths of a megabyte, rounded half-up. -/
def mbTenths (bytes : Nat) : Nat := roundDiv (bytes * 10) (1024 * 1024)

/-- Render tenths as `<whole>.<tenth>`. -/
def renderMB (tenths : Nat) : String :=
  toString (tenths / 10) ++ "." ++ toString (tenths % 10)

/-- The percentage of `formatProgress`: clamped as in `downloadFile`,
and `0` when `total` is `0`. -/
def formatPercentage (downloaded total : Nat) : Nat :=
  if 0 < total then downloadPercentage downloaded total else 0

/-- `formatProgress` from `utils.ts`. -/
def formatProgress (downloaded total : Nat) : String :=
  renderMB (mbTenths downloaded) ++ " MB / " ++ renderMB (mbTenths total) ++
    " MB (" ++ toString (formatPercentage downloaded total) ++ "%)"

/-! ## Filesystem trees, `copyDir` and `findWidevineInExtracted`

A directory tree: files carry byte content, symbolic links carry
their target path un-followed, and a directory is a spine of named
entries in directory-listing order (`dirNil` / `dirCons`). -/

/-- A filesystem node / directory-entry spine. -/
inductive FsTree where
  | file (content : List Nat) : FsTree
  | symlink (target : String) : FsTree
  | dirNil : FsTree
  | dirCons (name : String) (child : FsTree) (rest : FsTree) : FsTree
deriving DecidableEq, Repr

/-- `entry.isDirectory()`: directories are the `dirNil`/`dirCons`
spines. -/
def FsTree.isDir : FsTree → Bool
  | .dirNil => true
  | .dirCons _ _ _ => true
  | _ => false

/-- The recursive copy `fs.cp(src, dest, { recursive: true,
verbatimSymlinks: true })` performs on a tree: files are copied byte
for byte, symbolic links are reproduced as links (not followed), and
directories are rebuilt entry by entry. -/
def copyTree : FsTree → FsTree
  | .file c => .file c
  | .symlink t => .symlink t
  | .dirNil => .dirNil
  | .dirCons n c r => .dirCons n (copyTree c) (copyTree r)

/-- A top-level filesystem mapping paths to trees (`none` = absent). -/
def Fs : Type := String → Option FsTree

/-- `copyDir` from `utils.ts`: `rm(dest, {recursive, force})` then
`cp(src, dest, {recursive, force, verbatimSymlinks})`.  `cp` throws
when the source does not exist; the forced `rm` never throws. -/
def copyDir (fs : Fs) (src dest : String) : Option Fs :=
  let afterRm : Fs := fun p => if p = dest then none else fs p
  match afterRm src with
  | none => none
  | some tree => some (fun p => if p = dest then some (copyTree tree) else afterRm p)

/-- The two directory names `findWidevineInExtracted` recognizes. -/
def isWidevineName (name : String) : Bool :=
  name = "WidevineCdm" || name = "WidevineCdm.plugin"

/-- The entry scan of `searchDir` in `extractor.ts`: walk the entries
in listing order; a directory entry with a recognized name is
returned at once (path components accumulated left to right), any
other directory entry is searched recursively before moving on;
non-directory entries are skipped. -/
def searchEntries : FsTree → List String → Option (List String)
  | .dirCons name child rest, path =>
      if child.isDir then
        if isWidevineName name then some (path ++ [name])
        else
          match searchEntries child (path ++ [name]) with
          | some r => some r
          | none => searchEntries rest path
      else searchEntries rest path
  | _, _ => none

/-- `findWidevineInExtracted` from `extractor.ts`: `none` when the
base path is not a directory, otherwise the entry scan above. -/
def findWidevineInExtracted (base : Option FsTree) (basePath : List String) :
    Option (List String) :=
  match base with
  | none => none
  | some t => if t.isDir then searchEntries t basePath else none

/-- Specification-side definition, following the spec's words for the
C8 refinement: the preorder (depth-first) listing of the full paths
of every directory entry named one of the two recognized target
names. -/
def specAllTargetDirs : FsTree → List String → List (List String)
  | .dirCons name child rest, path =>
      (if child.isDir then
        (if isWidevineName name then [path ++ [name]] else []) ++
          specAllTargetDirs child (path ++ [name])
       else []) ++ specAllTargetDirs rest path
  | _, _ => []

/-! ## `downloadAndExtractChrome` (`chrome-downloader.ts`)

The routine, with its effects passed explicitly: the release (already
fetched; a fetch failure is a separate throw before any of this), the
cache state on disk, the HTTP response a fresh download would
receive, the archive extractor (external `7zip-min`, modelled as an
opaque function from artifact bytes to the extracted tree), and the
clock for `Date.now()`.  Writing the record with `JSON.stringify` and
re-reading it is modelled as the record parsing back to itself. -/

/-- The cache slot on disk: artifact bytes and the parsed view of
`version.json` (see `checkCachedVersion`). -/
structure CacheState where
  exeFile : Option (List Nat)
  versionFile : Option (Option VersionCache)
deriving DecidableEq, Repr

/-- `downloadAndExtractChrome` from `chrome-downloader.ts`.  Returns
the cache state it leaves behind and the found WidevineCdm path, or
the thrown error. -/
def downloadAndExtractChrome (platform : Platform) (arch : Arch) (forceDownload : Bool)
    (st : CacheState) (release : GitHubRelease) (resp : HttpResp)
    (extractor : List Nat → FsTree) (now : Nat) :
    Except String (CacheState × List String) :=
  match findMatchingAsset platform arch release with
  | .error e => .error e
  | .ok asset =>
      let useCache :=
        checkCachedVersion platform arch forceDownload st.exeFile st.versionFile release
      let afterDl : Except String CacheState :=
        if useCache then .ok st
        else
          match downloadFile resp with
          | .error e => .error e
          | .ok (_, bytes) =>
              .ok ⟨some bytes,
                some (some ⟨release.tag_name, asset.name, now, some (calculateChecksum bytes)⟩)⟩
      match afterDl with
      | .error e => .error e
      | .ok st2 =>
          match st2.exeFile with
          | none => .error "Could not find WidevineCdm in downloaded Chrome"
          | some artifact =>
              match findWidevineInExtracted (some (extractor artifact)) [] with
              | none => .error "Could not find WidevineCdm in downloaded Chrome"
              | some p => .ok (st2, p)

/-! ## Orchestrator (`fixHeliumDrm` in `commands/index.ts` and the
`program.action` wrapper in the CLI entry point)

The run is modelled as a pure function from the options and an
environment record to the process exit code together with the
per-destination copy outcomes.  `process.exit(1)` and normal
completion (exit code 0) are the two possible exits; the
`program.action` wrapper turns any uncaught throw into exit code 1,
but `fixHeliumDrm` itself already catches the source-resolution
throw (exiting 1) and each copy failure (logging and continuing). -/

/-- The CLI options of `FixHeliumDrmOptions`. -/
structure FixOptions where
  verbose : Bool
  dryRun : Bool
  check : Bool
  chromePath : Option String
  heliumPath : Option String
  forceDownload : Bool
deriving DecidableEq, Repr

/-- The environment a run observes: the locally probed Chrome
Widevine path, the result a download attempt would produce, the
Helium version paths found, and which copy operations succeed. -/
structure RunEnv where
  localChrome : Option String
  downloadResult : Except String String
  heliumVersionPaths : List String
  copySucceeds : String → Bool

/-- `getChromeWidevinePath` from `commands/index.ts`: the override
path if given, else the local probe, else the downloader. -/
def getChromeWidevinePath (opts : FixOptions) (env : RunEnv) : Except String String :=
  match opts.chromePath with
  | some p => .ok p
  | none =>
      match env.localChrome with
      | some p => .ok p
      | none => env.downloadResult

/-- `getHeliumVersionPaths` from `commands/index.ts`: the override
path as a singleton if given, else the probed list (the empty-list
exit is taken in `fixHeliumDrm` below). -/
def getHeliumVersionPaths (opts : FixOptions) (env : RunEnv) : List String :=
  match opts.heliumPath with
  | some p => [p]
  | none => env.heliumVersionPaths

/-- `fixHeliumDrm` from `commands/index.ts` (under the CLI wrapper):
the process exit code and the success/failure outcome of each copy
performed.  Chrome-resolution throws are caught and exit 1; an empty
Helium path list exits 1; check mode returns before any copy; dry-run
skips every copy; copy failures are caught per destination and the
run still completes with exit 0. -/
def fixHeliumDrm (opts : FixOptions) (env : RunEnv) : Nat × List Bool :=
  match getChromeWidevinePath opts env with
  | .error _ => (1, [])
  | .ok _ =>
      let heliumPaths := getHeliumVersionPaths opts env
      if heliumPaths.isEmpty then (1, [])
      else if opts.check then (0, [])
      else if opts.dryRun then (0, [])
      else (0, heliumPaths.map (fun p => env.copySucceeds (p ++ "/WidevineCdm")))

/-! ## Auxiliary definitions for the statements -/

/-- Specification-side name builder: an asset name built from an
architecture token — the token, an underscore, a version string, and
the fixed installer tail. -/
def specAssetName (archToken version : String) : String :=
  archToken ++ "_" ++ version ++ chromeAssetTail

/-- Total bytes of the first `k` chunks. -/
def partialBytes (chunks : List (List Nat)) (k : Nat) : Nat :=
  ((chunks.take k).map List.length).sum

/-- A concrete release used to instantiate the downloader theorems:
one Windows x64 asset. -/
def cRel : GitHubRelease :=
  ⟨"v1", [⟨"x64_1.0_chrome_installer_uncompressed.exe", "u", 5⟩]⟩

/-- A concrete successful HTTP response with one 3-byte chunk. -/
def cResp : HttpResp := ⟨true, 200, some 3, [[1, 2, 3]]⟩

/-- A concrete extractor whose output tree has a `WidevineCdm`
directory at top level. -/
def cExt : List Nat → FsTree := fun _ => .dirCons "WidevineCdm" .dirNil .dirNil

/-- The cache state the fresh-download branch leaves behind on the
concrete inputs above. -/
def cSt2 : CacheState :=
  ⟨some [1, 2, 3],
   some (some ⟨"v1", "x64_1.0_chrome_installer_uncompressed.exe", 0,
     some (calculateChecksum [1, 2, 3])⟩)⟩

/-- A concrete filesystem for the `copyDir` witness: a source tree
with a file, a symbolic link and a nested directory, and stale
content at the destination. -/
def cSrcTree : FsTree :=
  .dirCons "f.bin" (.file [1, 2]) (.dirCons "ln" (.symlink "f.bin")
    (.dirCons "sub" (.dirCons "g.bin" (.file [3]) .dirNil) .dirNil))

/-- The concrete filesystem holding `cSrcTree` at `"src"` and stale
bytes at `"dest"`. -/
def cFs : Fs := fun p =>
  if p = "src" then some cSrcTree
  else if p = "dest" then some (.file [9, 9]) else none

/-! ## Shared lemmas -/

/-- `(a ++ b).data` is the concatenation of the data lists. -/
theorem strAppData (a b : String) : (a ++ b).data = a.data ++ b.data := rfl

/-- The recursive copy reproduces a tree exactly: same bytes, same
structure, symbolic links kept as links. -/
theorem copyTree_id : ∀ t : FsTree, copyTree t = t := by
  intro t
  induction t with
  | file c => rfl
  | symlink s => rfl
  | dirNil => rfl
  | dirCons n c r ihc ihr => simp [copyTree, ihc, ihr]

/-- Dropping a leading copy of `p` succeeds and leaves the rest. -/
theorem dropLead_append : ∀ p rest : List Char, dropLead p (p ++ rest) = some rest := by
  intro p
  induction p with
  | nil => intro rest; rfl
  | cons c cs ih => intro rest; simp [dropLead, ih]

/-- Dropping a trailing copy of `s` succeeds and leaves the front. -/
theorem dropTail_append (s mid : List Char) : dropTail s (mid ++ s) = some mid := by
  unfold dropTail
  rw [List.reverse_append, dropLead_append]
  simp

/-- The hex digest of any byte list is nonempty (it always has 64
hex digits). -/
theorem calculateChecksum_ne_empty (c : List Nat) : calculateChecksum c ≠ "" := by
  unfold calculateChecksum
  intro h
  have hd : List.flatten ([(sha256 c).a, (sha256 c).b, (sha256 c).c, (sha256 c).d,
      (sha256 c).e, (sha256 c).f, (sha256 c).g, (sha256 c).h].map wordToHex) = [] := by
    have := congrArg String.data h
    simpa using this
  simp [wordToHex] at hd

/-- Characterization of `copyDir` when the source exists and differs
from the destination: the destination is replaced by an exact copy of
the source tree and every other path is untouched. -/
theorem copyDir_eq (fs : Fs) (src dest : String) (tree : FsTree) (hne : src ≠ dest)
    (hsrc : fs src = some tree) :
    copyDir fs src dest = some (fun p => if p = dest then some tree else fs p) := by
  unfold copyDir
  have h1 : (if src = dest then none else fs src) = some tree := by simp [hne, hsrc]
  simp only [h1]
  congr 1
  funext p
  by_cases hp : p = dest <;> simp [hp, copyTree_id]

/-! ## Claims -/

/-- C4: for every platform other than Windows (the one OS supported
for remote downloads) and every architecture, `getChromeAssetPattern`
throws the explanatory error instead of returning a pattern, so asset
selection fails unconditionally there. -/
theorem getChromeAssetPattern_non_windows :
    ∀ arch : Arch,
      getChromeAssetPattern .darwin arch =
        .error "Chrome download is only supported on Windows. Please install Chrome manually on macOS/Linux." ∧
      getChromeAssetPattern .linux arch =
        .error "Chrome download is only supported on Windows. Please install Chrome manually on macOS/Linux." ∧
      ∀ rel : GitHubRelease, (findMatchingAsset .darwin arch rel).isOk = false ∧
        (findMatchingAsset .linux arch rel).isOk = false := by
  intro arch
  refine ⟨rfl, rfl, fun rel => ⟨rfl, rfl⟩⟩

/-- C10: the progress percentage is total and always within 0..100:
`formatProgress` clamps with `min 100` even when `downloaded` exceeds
`total`, a zero `total` yields `0` rather than a division error, and
the per-chunk percentage of `downloadFile` (`downloadPercentage`) is
clamped the same way. -/
theorem formatProgress_percentage_bounds :
    ∀ downloaded total : Nat,
      formatPercentage downloaded total ≤ 100 ∧
      formatPercentage downloaded 0 = 0 ∧
      downloadPercentage downloaded total ≤ 100 ∧
      formatProgress downloaded total =
        renderMB (mbTenths downloaded) ++ " MB / " ++ renderMB (mbTenths total) ++
          " MB (" ++ toString (formatPercentage downloaded total) ++ "%)" := by
  intro d t
  refine ⟨?_, by simp [formatPercentage], Nat.min_le_left _ _, rfl⟩
  unfold formatPercentage
  split
  · exact Nat.min_le_left _ _
  · exact Nat.zero_le _

/-- C6: `calculateChecksum` is deterministic (a pure function of the
byte content), maps the repository's fixed test input
`'Hello, World!'` to the fixed SHA-256 hex digest, and yields
different digests on the test's two differing contents. -/
theorem calculateChecksum_spec :
    (∀ c1 c2 : List Nat, c1 = c2 → calculateChecksum c1 = calculateChecksum c2) ∧
    calculateChecksum (strBytes "Hello, World!") =
      "dffd6021bb2bd5b0af676290809ec3a53191dd81c7f70a4b28688a362182986f" ∧
    calculateChecksum (strBytes "Content 1") ≠ calculateChecksum (strBytes "Content 2") := by
  refine ⟨fun c1 c2 h => congrArg _ h, by decide, by decide⟩

/-- C6 witness: the determinism conjunct applied at a concrete pair of
files with identical content. -/
theorem calculateChecksum_spec_witness :
    calculateChecksum (strBytes "Same content") = calculateChecksum (strBytes "Same content") :=
  calculateChecksum_spec.1 (strBytes "Same content") (strBytes "Same content") rfl

/-- C2 counterexample: a run in which the only copy step fails
(outcome list `[false]`) still exits with code 0, because
`fixHeliumDrm` catches the copy error per destination and completes
normally — contradicting the claim that a copy failure exits 1. -/
theorem fixHeliumDrm_copy_failure_exits_zero :
    fixHeliumDrm ⟨false, false, false, none, none, false⟩
      ⟨some "chrome", .ok "chrome", ["helium"], fun _ => false⟩ = (0, [false]) := rfl

/-- C2 (amended): every run exits 0 or 1, and exits 1 exactly when
source resolution throws or the destination browser is not found with
no override given; a copy failure is reported but the run still exits
0; a completed dry-run/check exits 0. -/
theorem fixHeliumDrm_exit_codes :
    ∀ (opts : FixOptions) (env : RunEnv),
      ((fixHeliumDrm opts env).1 = 0 ∨ (fixHeliumDrm opts env).1 = 1) ∧
      ((fixHeliumDrm opts env).1 = 1 ↔
        (∃ e, getChromeWidevinePath opts env = .error e) ∨
          (opts.heliumPath = none ∧ env.heliumVersionPaths = [])) := by
  intro opts env
  unfold fixHeliumDrm
  cases hc : getChromeWidevinePath opts env with
  | error e => simp
  | ok src =>
      have hg : getHeliumVersionPaths opts env = [] ↔
          (opts.heliumPath = none ∧ env.heliumVersionPaths = []) := by
        unfold getHeliumVersionPaths
        cases hh : opts.heliumPath <;> simp [hh]
      by_cases he : getHeliumVersionPaths opts env = []
      · simp [he, List.isEmpty_iff, hg.mp he]
      · have : ¬ (opts.heliumPath = none ∧ env.heliumVersionPaths = []) := fun h => he (hg.mpr h)
        by_cases hk : opts.check
        · simp [List.isEmpty_iff, he, hk, this]
        · by_cases hd : opts.dryRun <;> simp [List.isEmpty_iff, he, hk, hd, this]

/-- C5: `copyDir` first destroys the destination and then copies the
source tree verbatim (symbolic links preserved as links): afterwards
the destination holds a tree identical to the source regardless of
what it held before (full replacement, never a merge), other paths
are untouched, and running `copyDir` again with the unchanged source
reproduces the same filesystem (idempotence). -/
theorem copyDir_replaces_idempotent :
    (∀ target : String, copyTree (.symlink target) = .symlink target) ∧
    ∀ (fs : Fs) (src dest : String) (tree : FsTree),
      src ≠ dest → fs src = some tree →
      ∃ fs2, copyDir fs src dest = some fs2 ∧
        fs2 dest = some tree ∧
        (∀ p, p ≠ dest → fs2 p = fs p) ∧
        copyDir fs2 src dest = some fs2 := by
  refine ⟨fun t => rfl, ?_⟩
  intro fs src dest tree hne hsrc
  refine ⟨fun p => if p = dest then some tree else fs p, copyDir_eq fs src dest tree hne hsrc,
    by simp, fun p hp => by simp [hp], ?_⟩
  have h2 : (if src = dest then some tree else fs src) = some tree := by simp [hne, hsrc]
  rw [copyDir_eq _ src dest tree hne h2]
  congr 1
  funext p
  by_cases hp : p = dest <;> simp [hp]

/-- C5 witness: the theorem applied to a concrete filesystem whose
source tree holds a file, a symbolic link and a nested directory,
with stale bytes at the destination. -/
theorem copyDir_replaces_idempotent_witness :
    ∃ fs2, copyDir cFs "src" "dest" = some fs2 ∧
      fs2 "dest" = some cSrcTree ∧
      (∀ p, p ≠ "dest" → fs2 p = cFs p) ∧
      copyDir fs2 "src" "dest" = some fs2 :=
  copyDir_replaces_idempotent.2 cFs "src" "dest" cSrcTree (by decide) (by rfl)

/-- The pattern accepts every name built from its own token and a
nonempty version string over `[\d.]`. -/
theorem matchesChromeAsset_accepts (tok version : String)
    (hv : version.data ≠ []) (hall : ∀ c ∈ version.data, isVersionChar c = true) :
    matchesChromeAsset tok (specAssetName tok version) = true := by
  unfold matchesChromeAsset specAssetName
  have h : (tok ++ "_" ++ version ++ chromeAssetTail).toList =
      (tok ++ "_").toList ++ (version.data ++ chromeAssetTail.toList) := by
    simp [String.toList, strAppData, List.append_assoc]
  rw [h, dropLead_append]
  simp only [dropTail_append]
  have h1 : version.data.isEmpty = false := by
    cases hd : version.data with
    | nil => exact absurd hd hv
    | cons a l => rfl
  simp only [h1, List.all_eq_true, Bool.not_false, Bool.true_and]
  exact hall

/-- The `x64` pattern rejects every name built from the `arm64`
token: the leading characters already differ. -/
theorem matchesChromeAsset_x64_rejects_arm64 (version : String) :
    matchesChromeAsset "x64" (specAssetName "arm64" version) = false := by
  unfold matchesChromeAsset specAssetName
  have h2 : ("arm64" ++ "_" ++ version ++ chromeAssetTail).toList =
      'a' :: ("rm64_".data ++ (version.data ++ chromeAssetTail.data)) := by
    simp [String.toList, strAppData]
  rw [h2]
  have h1 : ("x64" ++ "_").toList = 'x' :: "64_".data := rfl
  rw [h1]
  simp [dropLead]

/-- The `arm64` pattern rejects every name built from the `x64`
token. -/
theorem matchesChromeAsset_arm64_rejects_x64 (version : String) :
    matchesChromeAsset "arm64" (specAssetName "x64" version) = false := by
  unfold matchesChromeAsset specAssetName
  have h2 : ("x64" ++ "_" ++ version ++ chromeAssetTail).toList =
      'x' :: ("64_".data ++ (version.data ++ chromeAssetTail.data)) := by
    simp [String.toList, strAppData]
  rw [h2]
  have h1 : ("arm64" ++ "_").toList = 'a' :: "rm64_".data := rfl
  rw [h1]
  simp [dropLead]

/-- C3: on Windows, the pattern returned for each architecture
accepts exactly the names built from that architecture's token — the
token, an underscore, a nonempty dotted-digit version, and the fixed
installer tail — and rejects names built from the other
architecture's token; in particular the arm64 pattern accepts
`arm64_143.0.7499.170_chrome_installer_uncompressed.exe` and rejects
the `x64_...` counterpart, and vice versa. -/
theorem getChromeAssetPattern_exact :
    ∀ version : String, version.data ≠ [] →
      (∀ c ∈ version.data, isVersionChar c = true) →
      getChromeAssetPattern .win32 .x64 = .ok "x64" ∧
      getChromeAssetPattern .win32 .arm64 = .ok "arm64" ∧
      matchesChromeAsset "x64" (specAssetName "x64" version) = true ∧
      matchesChromeAsset "x64" (specAssetName "arm64" version) = false ∧
      matchesChromeAsset "arm64" (specAssetName "arm64" version) = true ∧
      matchesChromeAsset "arm64" (specAssetName "x64" version) = false := by
  intro version hv hall
  exact ⟨rfl, rfl, matchesChromeAsset_accepts _ _ hv hall,
    matchesChromeAsset_x64_rejects_arm64 version,
    matchesChromeAsset_accepts _ _ hv hall,
    matchesChromeAsset_arm64_rejects_x64 version⟩

/-- C3 witness: the theorem at the concrete version
`143.0.7499.170`, giving the test file's four concrete
accept/reject facts. -/
theorem getChromeAssetPattern_exact_witness :
    getChromeAssetPattern .win32 .x64 = .ok "x64" ∧
    getChromeAssetPattern .win32 .arm64 = .ok "arm64" ∧
    matchesChromeAsset "x64" (specAssetName "x64" "143.0.7499.170") = true ∧
    matchesChromeAsset "x64" (specAssetName "arm64" "143.0.7499.170") = false ∧
    matchesChromeAsset "arm64" (specAssetName "arm64" "143.0.7499.170") = true ∧
    matchesChromeAsset "arm64" (specAssetName "x64" "143.0.7499.170") = false :=
  getChromeAssetPattern_exact "143.0.7499.170" (by decide) (by decide)

/-- C1: the cache-validity check returns `true` exactly when
`forceDownload` is unset, the artifact file and the record file both
exist, the record parses, its tag equals the fetched release's tag,
it has a (nonempty) checksum, the checksum recomputed from the
on-disk artifact equals the recorded one, and the asset lookup inside
the same `try` succeeds.  Consequently it returns `false` whenever
the artifact is absent, the record is absent or unparseable (a cache
miss, never a thrown error — the function is total), the tag
differs, the checksum is missing, or the recomputed checksum
differs; and with `forceDownload` set it returns `false` without
checking anything. -/
theorem checkCachedVersion_iff :
    ∀ (pf : Platform) (arch : Arch) (force : Bool) (exeFile : Option (List Nat))
      (versionFile : Option (Option VersionCache)) (release : GitHubRelease),
      checkCachedVersion pf arch force exeFile versionFile release = true ↔
        (force = false ∧ ∃ exeBytes cached cs asset,
          exeFile = some exeBytes ∧ versionFile = some (some cached) ∧
          cached.tag = release.tag_name ∧ cached.checksum = some cs ∧ cs ≠ "" ∧
          calculateChecksum exeBytes = cs ∧
          findMatchingAsset pf arch release = .ok asset) := by
  intro pf arch force exeF verF rel
  unfold checkCachedVersion
  cases force with
  | true => simp
  | false =>
    cases exeF with
    | none => simp
    | some b =>
      cases verF with
      | none => simp
      | some parsed =>
        cases parsed with
        | none => simp
        | some cached =>
          cases hcs : cached.checksum with
          | none => simp [checksumTruthy, hcs]
          | some s =>
            by_cases htag : cached.tag = rel.tag_name
            · by_cases hse : s = ""
              · simp [checksumTruthy, hcs, htag, hse]
              · by_cases hsum : calculateChecksum b = s
                · cases hasset : findMatchingAsset pf arch rel with
                  | error e => simp [checksumTruthy, hcs, htag, hse, hsum, hasset]
                  | ok a => simp [checksumTruthy, hcs, htag, hse, hsum, hasset]
                · simp [checksumTruthy, hcs, htag, hse, hsum]
            · simp [checksumTruthy, hcs, htag]

/-- One progress record is produced per received chunk. -/
theorem chunkProgress_length (total : Nat) :
    ∀ (chunks : List (List Nat)) (dl : Nat),
      (chunkProgress total dl chunks).length = chunks.length := by
  intro chunks
  induction chunks with
  | nil => intro dl; rfl
  | cons c rest ih => intro dl; simp [chunkProgress, ih]

/-- Closed form of the `i`-th progress record: cumulative bytes of
the first `i + 1` chunks, the declared total, and the clamped
percentage. -/
theorem chunkProgress_get (total : Nat) :
    ∀ (chunks : List (List Nat)) (dl i : Nat), i < chunks.length →
      (chunkProgress total dl chunks)[i]? =
        some ⟨dl + partialBytes chunks (i + 1), total,
          downloadPercentage (dl + partialBytes chunks (i + 1)) total⟩ := by
  intro chunks
  induction chunks with
  | nil => intro dl i h; exact absurd h (by simp)
  | cons c rest ih =>
      intro dl i h
      cases i with
      | zero => simp [chunkProgress, partialBytes]
      | succ j =>
          have hj : j < rest.length := by simpa using h
          have := ih (dl + c.length) j hj
          simp only [chunkProgress, List.getElem?_cons_succ]
          rw [this]
          have hpb : dl + c.length + partialBytes rest (j + 1) =
              dl + partialBytes (c :: rest) (j + 1 + 1) := by
            simp [partialBytes, List.take_succ_cons, Nat.add_assoc]
          rw [hpb]

/-- C7: `downloadFile` fails fast — before consuming any body chunk —
with the status code surfaced in the error when the response status
is not ok, and with a fixed error when the declared content length is
absent or zero; otherwise it emits the initial progress record and
then, after every received chunk, a record with the cumulative bytes
downloaded, the declared total, and the percentage derived from the
declared content length, finally writing the concatenated bytes. -/
theorem downloadFile_spec :
    ∀ resp : HttpResp,
      (resp.ok = false →
        ∀ cs : List (List Nat),
          downloadFile { resp with chunks := cs } =
            .error (formatError "Failed to download Chrome installer"
              (some [("status", toString resp.status)]))) ∧
      (resp.ok = true → resp.contentLength = none →
        ∀ cs : List (List Nat),
          downloadFile { resp with chunks := cs } =
            .error "Content-Length header not found in response") ∧
      (resp.ok = true → resp.contentLength = some 0 →
        ∀ cs : List (List Nat),
          downloadFile { resp with chunks := cs } =
            .error "Content-Length header not found in response") ∧
      (∀ total, resp.ok = true → resp.contentLength = some total → total ≠ 0 →
        ∃ events, downloadFile resp = .ok (events, resp.chunks.flatten) ∧
          events.length = resp.chunks.length + 1 ∧
          events[0]? = some ⟨0, total, 0⟩ ∧
          ∀ i, i < resp.chunks.length →
            events[i + 1]? = some ⟨partialBytes resp.chunks (i + 1), total,
              downloadPercentage (partialBytes resp.chunks (i + 1)) total⟩) := by
  intro resp
  refine ⟨?_, ?_, ?_, ?_⟩
  · intro hok cs
    simp [downloadFile, hok]
  · intro hok hcl cs
    simp [downloadFile, hok, hcl]
  · intro hok hcl cs
    simp [downloadFile, hok, hcl]
  · intro total hok hcl htot
    refine ⟨⟨0, total, 0⟩ :: chunkProgress total 0 resp.chunks, ?_, ?_, by simp, ?_⟩
    · simp [downloadFile, hok, hcl, htot]
    · simp [chunkProgress_length]
    · intro i hi
      have := chunkProgress_get total resp.chunks 0 i hi
      simpa using this

/-- C7 witness: the theorem at a concrete ok response declaring 3
bytes and carrying one 3-byte chunk; the fail-fast conjunct at a
concrete 404 response. -/
theorem downloadFile_spec_witness :
    (∃ events, downloadFile cResp = .ok (events, [1, 2, 3]) ∧
      events.length = 2 ∧ events[0]? = some ⟨0, 3, 0⟩ ∧
      ∀ i, i < 1 →
        events[i + 1]? = some ⟨partialBytes [[1, 2, 3]] (i + 1), 3,
          downloadPercentage (partialBytes [[1, 2, 3]] (i + 1)) 3⟩) ∧
    downloadFile ⟨false, 404, some 3, [[1, 2, 3]]⟩ =
      .error "Failed to download Chrome installer (status=404)" := by
  constructor
  · exact (downloadFile_spec cResp).2.2.2 3 rfl rfl (by decide)
  · exact (downloadFile_spec ⟨false, 404, some 3, []⟩).1 rfl [[1, 2, 3]]

/-- C8: the extraction search is exactly depth-first-first-match: it
returns the head of the preorder listing of all directories named
`WidevineCdm`/`WidevineCdm.plugin` (so `none` exactly when no such
directory exists after a full traversal); and when the search over
the extracted tree comes back empty, `downloadAndExtractChrome` fails
with the fatal error. -/
theorem findWidevine_spec :
    (∀ (t : FsTree) (path : List String),
      searchEntries t path = (specAllTargetDirs t path).head?) ∧
    (∀ (pf : Platform) (arch : Arch) (force : Bool) (st : CacheState)
       (rel : GitHubRelease) (resp : HttpResp) (ext : List Nat → FsTree) (now : Nat)
       (asset : GitHubAsset) (ev : List DownloadProgress) (bytes : List Nat),
       findMatchingAsset pf arch rel = .ok asset →
       checkCachedVersion pf arch force st.exeFile st.versionFile rel = false →
       downloadFile resp = .ok (ev, bytes) →
       findWidevineInExtracted (some (ext bytes)) [] = none →
       downloadAndExtractChrome pf arch force st rel resp ext now =
         .error "Could not find WidevineCdm in downloaded Chrome") := by
  constructor
  · intro t
    induction t with
    | file c => intro path; rfl
    | symlink s => intro path; rfl
    | dirNil => intro path; rfl
    | dirCons name child rest ihc ihr =>
        intro path
        by_cases hdir : child.isDir
        · by_cases hname : isWidevineName name
          · simp [searchEntries, specAllTargetDirs, hdir, hname]
          · simp only [searchEntries, specAllTargetDirs, hdir, hname, if_true, if_false,
              Bool.false_eq_true, ite_true, ite_false, List.nil_append, List.head?_append]
            rw [ihc, ihr]
            cases hspec : (specAllTargetDirs child (path ++ [name])).head? with
            | none => simp [hspec]
            | some r => simp [hspec]
        · simp [searchEntries, specAllTargetDirs, hdir, ihr]
  · intro pf arch force st rel resp ext now asset ev bytes hma hcache hdl hfind
    unfold downloadAndExtractChrome
    rw [hma]
    simp only [hcache, if_false, Bool.false_eq_true, ite_false]
    rw [hdl]
    simp only []
    rw [hfind]

/-- C8 witness: the pipeline conjunct at concrete inputs whose
extracted tree holds no target directory, plus a search over a small
concrete tree. -/
theorem findWidevine_spec_witness :
    downloadAndExtractChrome .win32 .x64 false ⟨none, none⟩ cRel cResp (fun _ => .dirNil) 0 =
      .error "Could not find WidevineCdm in downloaded Chrome" :=
  findWidevine_spec.2 .win32 .x64 false ⟨none, none⟩ cRel cResp (fun _ => .dirNil) 0
    ⟨"x64_1.0_chrome_installer_uncompressed.exe", "u", 5⟩
    [⟨0, 3, 0⟩, ⟨3, 3, 100⟩] [1, 2, 3] (by rfl) (by decide) (by rfl) (by rfl)

/-- C9: whenever `downloadAndExtractChrome` completes its
fresh-download branch (the cache check came back `false`), the cache
record it persists carries the fetched release's `tag_name` and the
checksum computed from the artifact it just wrote — so an immediate
`checkCachedVersion` against the same release with the artifact
unmodified and `forceDownload` unset returns `true`. -/
theorem downloadAndExtract_roundTrip :
    ∀ (pf : Platform) (arch : Arch) (force : Bool) (st : CacheState)
      (rel : GitHubRelease) (resp : HttpResp) (ext : List Nat → FsTree) (now : Nat)
      (st2 : CacheState) (p : List String),
      checkCachedVersion pf arch force st.exeFile st.versionFile rel = false →
      downloadAndExtractChrome pf arch force st rel resp ext now = .ok (st2, p) →
      ∃ bytes asset,
        findMatchingAsset pf arch rel = .ok asset ∧
        st2.exeFile = some bytes ∧
        st2.versionFile =
          some (some ⟨rel.tag_name, asset.name, now, some (calculateChecksum bytes)⟩) ∧
        checkCachedVersion pf arch false st2.exeFile st2.versionFile rel = true := by
  intro pf arch force st rel resp ext now st2 p hcache hrun
  unfold downloadAndExtractChrome at hrun
  cases hma : findMatchingAsset pf arch rel with
  | error e => rw [hma] at hrun; exact absurd hrun (by simp)
  | ok asset =>
      rw [hma] at hrun
      simp only [hcache, Bool.false_eq_true, ite_false, if_false] at hrun
      cases hdl : downloadFile resp with
      | error e => rw [hdl] at hrun; exact absurd hrun (by simp)
      | ok evbytes =>
          rw [hdl] at hrun
          obtain ⟨ev, bytes⟩ := evbytes
          simp only [] at hrun
          cases hfind : findWidevineInExtracted (some (ext bytes)) [] with
          | none => rw [hfind] at hrun; exact absurd hrun (by simp)
          | some q =>
              rw [hfind] at hrun
              have hst2 : st2 =
                  ⟨some bytes,
                   some (some ⟨rel.tag_name, asset.name, now,
                     some (calculateChecksum bytes)⟩)⟩ := by
                cases hrun
                rfl
              refine ⟨bytes, asset, rfl, by rw [hst2], by rw [hst2], ?_⟩
              rw [hst2]
              simp [checkCachedVersion, checksumTruthy, hma, calculateChecksum_ne_empty bytes]

/-- C9 witness: the theorem at a concrete fresh download — empty
cache, one matching asset, a 3-byte body — whose persisted record
then validates. -/
theorem downloadAndExtract_roundTrip_witness :
    ∃ bytes asset,
      findMatchingAsset .win32 .x64 cRel = .ok asset ∧
      cSt2.exeFile = some bytes ∧
      cSt2.versionFile =
        some (some ⟨cRel.tag_name, asset.name, 0, some (calculateChecksum bytes)⟩) ∧
      checkCachedVersion .win32 .x64 false cSt2.exeFile cSt2.versionFile cRel = true :=
  downloadAndExtract_roundTrip .win32 .x64 false ⟨none, none⟩ cRel cResp cExt 0 cSt2
    ["WidevineCdm"] (by decide) (by rfl)

/-- C1 witness: the characterization applied at a concrete valid
cache — artifact present, record parsed, matching tag, recorded
checksum equal to the recomputed one — yielding `true`. -/
theorem checkCachedVersion_iff_witness :
    checkCachedVersion .win32 .x64 false (some [1, 2, 3])
      (some (some ⟨"v1", "x64_1.0_chrome_installer_uncompressed.exe", 7,
        some (calculateChecksum [1, 2, 3])⟩)) cRel = true :=
  (checkCachedVersion_iff .win32 .x64 false (some [1, 2, 3])
      (some (some ⟨"v1", "x64_1.0_chrome_installer_uncompressed.exe", 7,
        some (calculateChecksum [1, 2, 3])⟩)) cRel).mpr
    ⟨rfl, [1, 2, 3], ⟨"v1", "x64_1.0_chrome_installer_uncompressed.exe", 7,
        some (calculateChecksum [1, 2, 3])⟩, calculateChecksum [1, 2, 3],
      ⟨"x64_1.0_chrome_installer_uncompressed.exe", "u", 5⟩,
      rfl, rfl, rfl, rfl, calculateChecksum_ne_empty _, rfl, rfl⟩

end HeliumDrm
